import Mathlib

/-!
Verification of the asyncoro coroutine runtime (dispy repository,
src/asyncoro.py) against its natural-language specification.

The Python source is shallowly embedded: byte strings become `List Nat`
(each element a byte value), `struct.pack('>L', n)` becomes `u32be`,
times become rationals, Python `None` becomes `Option`/a dedicated
constructor, and the mutable scheduler / notifier state becomes explicit
state-passing over structures.  Python `set` objects are represented as
duplicate-free `List Nat` with `addSet` / `List.erase` mirroring
`set.add` / `set.discard`; Python `dict` objects are association lists.
-/

set_option maxRecDepth 4000

namespace ACoro

/-! ## Framed messages (AsynCoroSocket.sync_write_msg / sync_read_msg) -/

/-- Big-endian 4-byte encoding of a natural number, modelling
`struct.pack('>L', n)`.  `struct.pack` raises `struct.error` when
`n >= 2^32`, so theorems about it carry an in-range hypothesis. -/
def u32be (n : Nat) : List Nat :=
  [n / 2 ^ 24 % 256, n / 2 ^ 16 % 256, n / 2 ^ 8 % 256, n % 256]

/-- Big-endian decoding of a 4-byte list, modelling one `'>L'` field of
`struct.unpack`. -/
def be32 : List Nat → Nat
  | [b0, b1, b2, b3] => ((b0 * 256 + b1) * 256 + b2) * 256 + b3
  | _ => 0

/-- Model of `AsynCoroSocket.sync_read` reading from a byte stream: the
source loops on `recv` until exactly `bufsize` bytes have accumulated,
so on a stream holding at least `bufsize` bytes it returns the first
`bufsize` bytes and leaves the rest; on a shorter stream the loop never
completes (modelled as `none`). -/
def sync_read (stream : List Nat) (bufsize : Nat) : Option (List Nat × List Nat) :=
  if bufsize ≤ stream.length then some (stream.take bufsize, stream.drop bufsize) else none

/-- Model of `AsynCoroSocket.sync_write`: the source loops on `send`
until the whole buffer is written, i.e. it appends `data` to the
outgoing stream. -/
def sync_write (out data : List Nat) : List Nat := out ++ data

/-- Model of `AsynCoroSocket.sync_write_msg(uid, data, auth)`: writes the
auth code when `auth` is set and the socket's `auth_code` is truthy
(a Python `None` or empty byte string is falsy, both modelled as `[]`),
then writes `struct.pack('>LL', uid, len(data)) + data`. -/
def sync_write_msg (uid : Nat) (data : List Nat) (auth : Bool) (auth_code : List Nat) :
    List Nat :=
  let out : List Nat := []
  let out := if auth ∧ auth_code ≠ [] then sync_write out auth_code else out
  sync_write out (u32be uid ++ u32be data.length ++ data)

/-- Possible outcomes of `sync_read_msg`:  `blocked` when a `sync_read`
never completes for lack of bytes, `assertFailed` when
`assert msg_len > 0` fails (an `AssertionError` propagates to the
caller; the `except` clause only catches `socket.timeout`),
`disconnected` for the `(None, None)` returns, and `ok uid msg` for the
normal return. -/
inductive ReadMsgResult where
  | blocked
  | assertFailed
  | disconnected
  | ok (uid : Nat) (msg : List Nat)
deriving DecidableEq

/-- Model of `AsynCoroSocket.sync_read_msg`: reads
`info_len = struct.calcsize('>LL') = 8` bytes, unpacks `(uid, msg_len)`,
asserts `msg_len > 0`, reads `msg_len` payload bytes, and returns
`(uid, msg)`. -/
def sync_read_msg (stream : List Nat) : ReadMsgResult :=
  match sync_read stream 8 with
  | none => .blocked
  | some (info, rest) =>
    if info.length < 8 then .disconnected
    else
      let uid := be32 (info.take 4)
      let msg_len := be32 (info.drop 4)
      if msg_len = 0 then .assertFailed
      else
        match sync_read rest msg_len with
        | none => .blocked
        | some (msg, _) =>
          if msg.length < msg_len then .disconnected else .ok uid msg

/-! ## Scheduler (AsynCoro) -/

/-- Scheduling states of a coroutine (`AsynCoro._Scheduled` … `_Frozen`). -/
inductive CState where
  | scheduled
  | running
  | suspended
  | stopped
  | frozen
deriving DecidableEq

/-- Python values a coroutine's `_value` slot can hold, as far as the
scheduler inspects them: `nil` is `None`, `payload` an opaque value
(identified by a number), `excVal` an exception triple, `coroRef` a
`Coro` handle (matched by `isinstance(retval, Coro)`), `genRef` a
generator object (matched by `isinstance(retval, types.GeneratorType)`),
each identified by a number. -/
inductive Val where
  | nil
  | payload (n : Int)
  | excVal (n : Int)
  | coroRef (cid : Nat)
  | genRef (g : Nat)
deriving DecidableEq

/-- One entry of a coroutine's `_stack`: either a generator frame (pushed
when the coroutine yielded into a sub-generator) or a parent `Coro`
handle.  The Lean list head is the Python list end (`append`/`pop(-1)`
operate on the top of the stack). -/
inductive Frame where
  | genFrame (g : Nat)
  | coroFrame (cid : Nat)
deriving DecidableEq

/-- The per-coroutine record: `_state`, `_value`, `_value_is_exc`, the
current generator object (by number), and `_stack`. -/
structure CoroRec where
  state : CState
  value : Val
  valueIsExc : Bool
  gen : Nat
  stack : List Frame
deriving DecidableEq

/-- The scheduler state guarded by `AsynCoro._sched_cv`: the coroutine
map `_coros` (an association list keyed by coroutine id), the sets
`_running` and `_suspended` (duplicate-free lists), and the paired
sorted sequences `_timeouts` / `_timeout_cids`. -/
structure Sched where
  coros : List (Nat × CoroRec)
  running : List Nat
  suspended : List Nat
  timeouts : List ℚ
  timeoutCids : List Nat
deriving DecidableEq

/-- Python `set.add`: a no-op when the element is present. -/
def addSet (l : List Nat) (x : Nat) : List Nat := if x ∈ l then l else l ++ [x]

/-- Assignment `coros[cid] = c` for a key already present in the
association list. -/
def setCoro (l : List (Nat × CoroRec)) (cid : Nat) (c : CoroRec) : List (Nat × CoroRec) :=
  l.map fun p => if p.1 = cid then (cid, c) else p

/-- Model of `AsynCoro._resume(cid, value)` (the boolean result records
whether the call fell into a `logging.warning` branch and dropped the
request).  On a coroutine in state `Stopped` or `Suspended` it writes
`value` into `_value`, moves the id from `_suspended` to `_running` and
sets the state to `Scheduled`; it does not touch `_value_is_exc`. -/
def resumeOp (st : Sched) (cid : Nat) (v : Val) : Sched × Bool :=
  match st.coros.lookup cid with
  | none => (st, true)
  | some c =>
    if c.state = .stopped ∨ c.state = .suspended then
      ({ st with
          coros := setCoro st.coros cid { c with value := v, state := .scheduled },
          suspended := st.suspended.erase cid,
          running := addSet st.running cid }, false)
    else (st, true)

/-- The `timeout` argument of `Coro.suspend`/`sleep` as a Python value:
`None`, an `int`, or a `float` (floats modelled as rationals;
`isinstance(timeout, float)` is false for an `int`). -/
inductive TimeoutArg where
  | noTimeout
  | intVal (n : Int)
  | floatVal (q : ℚ)
deriving DecidableEq

/-- Index of Python's `bisect_left` on a sorted list: the number of
elements strictly below `x`. -/
def bisectLeft (l : List ℚ) (x : ℚ) : Nat := (l.takeWhile (fun t => t < x)).length

/-- Python `list.insert(i, x)`. -/
def insertAt (l : List ℚ) (i : Nat) (x : ℚ) : List ℚ := l.take i ++ x :: l.drop i

/-- Python `list.insert(i, x)` for the id list. -/
def insertAtN (l : List Nat) (i : Nat) (x : Nat) : List Nat := l.take i ++ x :: l.drop i

/-- Body of `AsynCoro._suspend` after the timeout validation: look up the
coroutine (warn on an unknown id), require state `Running`, move the id
to `_suspended` with state `Suspended`, and when a deadline is given
insert it into the paired sorted sequences at the `bisect_left`
position. -/
def suspendBody (st : Sched) (cid : Nat) (deadline : Option ℚ) : Sched × Bool :=
  match st.coros.lookup cid with
  | none => (st, true)
  | some c =>
    if c.state = .running then
      let st1 : Sched :=
        { st with
            running := st.running.erase cid,
            suspended := addSet st.suspended cid,
            coros := setCoro st.coros cid { c with state := .suspended } }
      match deadline with
      | some d =>
        let i := bisectLeft st1.timeouts d
        ({ st1 with
            timeouts := insertAt st1.timeouts i d,
            timeoutCids := insertAtN st1.timeoutCids i cid }, false)
      | none => (st1, false)
    else (st, true)

/-- Model of `AsynCoro._suspend(cid, timeout)`: a timeout that is not
`None` must be a strictly positive `float` instance, otherwise the call
logs `invalid timeout` and returns without touching any state; a valid
timeout becomes the deadline `now + timeout`. -/
def suspendOp (st : Sched) (cid : Nat) (t : TimeoutArg) (now : ℚ) : Sched × Bool :=
  match t with
  | .intVal _ => (st, true)
  | .floatVal q => if q ≤ 0 then (st, true) else suspendBody st cid (some (now + q))
  | .noTimeout => suspendBody st cid none

/-- One iteration of the timer sweep body in `AsynCoro._scheduler`: for a
fired timer id found in `_coros`, discard it from `_suspended`, add it
to `_running`, set its state to `Scheduled` and clear its `_value` to
`None`; an id no longer in the map is skipped. -/
def wakeCoro (st : Sched) (cid : Nat) : Sched :=
  match st.coros.lookup cid with
  | none => st
  | some c =>
    { st with
        suspended := st.suspended.erase cid,
        running := addSet st.running cid,
        coros := setCoro st.coros cid { c with state := .scheduled, value := .nil } }

/-- The timer sweep loop `while self._timeouts and self._timeouts[0] <= now`,
recursing over the paired sequences and also returning the fired ids in
processing order; the remaining entries become the new paired
sequences. -/
def sweepAux (now : ℚ) : List ℚ → List Nat → Sched → Sched × List Nat
  | t :: ts, cid :: cids, st =>
    if t ≤ now then
      let res := sweepAux now ts cids (wakeCoro st cid)
      (res.1, cid :: res.2)
    else ({ st with timeouts := t :: ts, timeoutCids := cid :: cids }, [])
  | ts, cids, st => ({ st with timeouts := ts, timeoutCids := cids }, [])

/-- The timer sweep of one scheduler tick (`AsynCoro._scheduler`,
"wake up timed suspends"). -/
def sweepTimers (st : Sched) (now : ℚ) : Sched × List Nat :=
  sweepAux now st.timeouts st.timeoutCids st

/-- Model of the scheduler's handling of a stepped coroutine that
*yielded* `retval` (the `else` branch after `generator.send`): a
coroutine that asked to suspend during the step goes `Suspended →
Stopped` with its `_value` left untouched; one still `Running` records
`retval` as `_value` and goes to `Scheduled`.  Then, if `retval` is a
`Coro` handle the source executes `coro._state = AsyncCoro._Frozen` —
`AsyncCoro` is a misspelling of `AsynCoro` and is bound nowhere, so a
`NameError` is raised (and propagates out of the scheduler loop);
if `retval` is a generator, the current generator is pushed onto the
stack, `retval` installed, and `_value` cleared. -/
def handleYield (st : Sched) (cid : Nat) (retval : Val) : Except String Sched :=
  match st.coros.lookup cid with
  | none => .ok st
  | some c =>
    let c1 :=
      if c.state = .suspended then { c with state := .stopped }
      else if c.state = .running then { c with value := retval, state := .scheduled }
      else c
    let st1 : Sched := { st with coros := setCoro st.coros cid c1 }
    match retval with
    | .coroRef _ => .error "NameError: global name AsyncCoro is not defined"
    | .genRef g =>
      .ok { st1 with
              coros := setCoro st1.coros cid
                { c1 with stack := .genFrame c1.gen :: c1.stack, gen := g, value := .nil } }
    | _ => .ok st1

/-! ## Condition variable (CoroCondition) -/

/-- The `CoroCondition` state: `_waitlist` (coroutine ids in FIFO order),
`_owner`, and the `_notify` flag. -/
structure CoroCondition where
  waitlist : List Nat
  owner : Option Nat
  notifyFlag : Bool
deriving DecidableEq

/-- Model of `CoroCondition.notify`: set the flag; when the wait list is
non-empty, pop its head and call `resume(None)` on it (the second
component is the id whose resume is invoked). -/
def CoroCondition.notify (cv : CoroCondition) : CoroCondition × Option Nat :=
  let cv1 : CoroCondition := { cv with notifyFlag := true }
  match cv1.waitlist with
  | [] => (cv1, none)
  | w :: rest => ({ cv1 with waitlist := rest }, some w)

/-- Model of `CoroCondition.wait(coro)`: the second component is the
returned boolean (`True` = re-check the predicate, `False` = do not
reloop), the third records whether `coro.suspend()` was invoked. -/
def CoroCondition.wait (cv : CoroCondition) (c : Nat) : CoroCondition × Bool × Bool :=
  if cv.notifyFlag = false then
    ({ cv with owner := none, waitlist := cv.waitlist ++ [c] }, true, true)
  else
    ({ cv with notifyFlag := false, owner := some c }, false, false)

/-! ## Notifier (_AsyncNotifier) -/

/-- The per-socket data the notifier reads and writes: the activity
`timestamp` (`none` is Python `None`, the no-tracking sentinel), whether
a continuation `task` is recorded, and the waiting coroutine's id
(`none` is Python `None`). -/
structure NSock where
  timestamp : Option ℚ
  hasTask : Bool
  coro : Option Nat
deriving DecidableEq

/-- `_AsyncNotifier._Readable` with the epoll backend (`EPOLLIN`). -/
def evReadable : Nat := 1

/-- `_AsyncNotifier._Writable` with the epoll backend (`EPOLLOUT`). -/
def evWritable : Nat := 4

/-- `_AsyncNotifier._Error` with the epoll backend
(`EPOLLHUP | EPOLLERR`). -/
def evError : Nat := 24

/-- The body of the notifier dispatch loop for one `(fd, evnt)` pair,
branching on the variable `event` the loop actually tests (see
`dispatchBatch`): on `event == _Readable` or `event == _Writable` the
socket's timestamp, when tracked, is refreshed to `now` and its
recorded continuation invoked (a missing continuation is logged and
skipped); on `event == _Error`, and on any other value, nothing
happens.  The boolean records whether the continuation was invoked. -/
def dispatchPair (now : ℚ) (event : Nat) (fd : NSock) : NSock × Bool :=
  if event = evReadable then
    ({ fd with timestamp := fd.timestamp.map fun _ => now }, fd.hasTask)
  else if event = evWritable then
    ({ fd with timestamp := fd.timestamp.map fun _ => now }, fd.hasTask)
  else (fd, false)

/-- Model of the dispatch loop of `_AsyncNotifier._notifier` over one
poll batch (each pair already holds the result of the `_fds` lookup).
The loop iterates `for fd, evnt in events` but its branches test
`event`, which in Python 2 is the variable leaked from the preceding
list comprehension `[... for fileno, event in events]`, i.e. the event
of the *last* pair of the batch; with an empty batch the loop body never
runs.  Each element of the result is the updated socket paired with
whether its continuation was invoked. -/
def dispatchBatch (now : ℚ) (batch : List (Option NSock × Nat)) :
    List (Option NSock × Bool) :=
  match batch.getLast? with
  | none => []
  | some (_, event) =>
    batch.map fun p =>
      match p.1 with
      | none => (none, false)
      | some fd =>
        let r := dispatchPair now event fd
        (some r.1, r.2)

/-- Model of `_AsyncNotifier.modify(fd, event)` as far as it touches the
socket: a falsy (zero) `event` resets a tracked timestamp to `0` before
the poller interest change; the poller call itself is external. -/
def modifyInterest (fd : NSock) (event : Nat) : NSock :=
  if event = 0 then
    match fd.timestamp with
    | some _ => { fd with timestamp := some 0 }
    | none => fd
  else fd

/-- Python truthiness of a timestamp: `None` and `0` are falsy. -/
def timestampTruthy : Option ℚ → Bool
  | none => false
  | some q => q ≠ 0

/-- The selection predicate of the inactivity sweep in
`_AsyncNotifier._notifier`:
`fd.timestamp and (now - fd.timestamp) >= self._fd_timeout`. -/
def timedOutPred (now ft : ℚ) (fd : NSock) : Bool :=
  timestampTruthy fd.timestamp && decide (ft ≤ now - fd.timestamp.getD 0)

/-- Model of the inactivity sweep: select the sockets whose timestamp is
truthy and stale, and for each selected socket with a truthy `coro`,
null the timestamp and throw a timeout into that coroutine.  Returns
the updated sockets and the ids thrown into. -/
def inactivitySweep (fds : List NSock) (now ft : ℚ) : List NSock × List Nat :=
  let tos := fds.filter (timedOutPred now ft)
  (fds.map fun fd =>
      if timedOutPred now ft fd && fd.coro.isSome then { fd with timestamp := none } else fd,
    tos.filterMap (·.coro))

/-- Model of `_AsyncNotifier.__init__(poll_interval, fd_timeout)` on a
fresh singleton: `assert fd_timeout >= 5 * poll_interval` (a failing
assertion is `none`), then the intervals are stored. -/
def mkNotifier (poll_interval fd_timeout : ℚ) : Option (ℚ × ℚ) :=
  if 5 * poll_interval ≤ fd_timeout then some (poll_interval, fd_timeout) else none

/-! ## Spec-side descriptions and example states -/

/-- Spec-side description of the fired timers ("for every deadline ≤ now"):
the prefix of the paired timer entries whose deadline has passed, for
comparison with the source-translated `sweepTimers`. -/
def specFiredTimers (st : Sched) (now : ℚ) : List (ℚ × Nat) :=
  (st.timeouts.zip st.timeoutCids).takeWhile fun p => decide (p.1 ≤ now)

/-- Spec-side description of the timer entries that remain after the
sweep. -/
def specRemainingTimers (st : Sched) (now : ℚ) : List (ℚ × Nat) :=
  (st.timeouts.zip st.timeoutCids).dropWhile fun p => decide (p.1 ≤ now)

/-- Example scheduler state for the sleep-ordering scenario: coroutine 1
slept 30 time units, coroutine 2 slept 10 and coroutine 3 slept 20, so
the sorted deadline sequence is `[10, 20, 30]` paired with ids
`[2, 3, 1]`. -/
def sleepExample : Sched :=
  { coros := [(1, ⟨.suspended, .nil, false, 11, []⟩), (2, ⟨.suspended, .nil, false, 12, []⟩),
              (3, ⟨.suspended, .nil, false, 13, []⟩)],
    running := [], suspended := [1, 2, 3], timeouts := [10, 20, 30], timeoutCids := [2, 3, 1] }

/-- Example scheduler state with one `Stopped` coroutine whose
`_value_is_exc` flag is still set (reachable: an exception thrown into
the coroutine was caught by it, after which it suspended and yielded;
no code path clears the flag on that route). -/
def resumeExample : Sched :=
  { coros := [(1, ⟨.stopped, .excVal 3, true, 11, []⟩)],
    running := [], suspended := [1], timeouts := [], timeoutCids := [] }

/-- Example scheduler state with one `Running` coroutine, used to show
that an invalid sleep timeout is a complete no-op even when a suspend
would otherwise be possible. -/
def suspendExample : Sched :=
  { coros := [(1, ⟨.running, .nil, false, 11, []⟩)],
    running := [1], suspended := [], timeouts := [], timeoutCids := [] }

/-! ## Helper lemmas -/

theorem be32_u32be (n : Nat) (h : n < 2 ^ 32) : be32 (u32be n) = n := by
  simp only [u32be, be32]
  omega

theorem u32be_length (n : Nat) : (u32be n).length = 4 := rfl

theorem setCoro_cons (p : Nat × CoroRec) (l : List (Nat × CoroRec)) (y : Nat) (c' : CoroRec) :
    setCoro (p :: l) y c' = (if p.1 = y then (y, c') else p) :: setCoro l y c' := rfl

theorem lookup_setCoro_self (l : List (Nat × CoroRec)) (cid : Nat) (c c' : CoroRec)
    (h : l.lookup cid = some c) : (setCoro l cid c').lookup cid = some c' := by
  induction l with
  | nil => simp [List.lookup] at h
  | cons p l ih =>
    rw [setCoro_cons]
    by_cases hp : p.1 = cid
    · rw [if_pos hp]
      simp [List.lookup]
    · rw [if_neg hp]
      have hb : (cid == p.1) = false := beq_eq_false_iff_ne.mpr fun he => hp he.symm
      simp only [List.lookup, hb] at h ⊢
      exact ih h

theorem lookup_setCoro_ne (l : List (Nat × CoroRec)) (y cid : Nat) (c' : CoroRec)
    (h : cid ≠ y) : (setCoro l y c').lookup cid = l.lookup cid := by
  induction l with
  | nil => simp [setCoro]
  | cons p l ih =>
    rw [setCoro_cons]
    by_cases hp : p.1 = y
    · rw [if_pos hp]
      have hb : (cid == y) = false := beq_eq_false_iff_ne.mpr h
      have hb2 : (cid == p.1) = false := by rw [hp]; exact hb
      simp only [List.lookup, hb, hb2]
      exact ih
    · rw [if_neg hp]
      simp only [List.lookup]
      cases hcb : cid == p.1 <;> simp [hcb, ih]

theorem mem_addSet_self (l : List Nat) (x : Nat) : x ∈ addSet l x := by
  unfold addSet
  split
  · assumption
  · simp

theorem mem_addSet_of_mem (l : List Nat) (x y : Nat) (h : x ∈ l) : x ∈ addSet l y := by
  unfold addSet
  split
  · exact h
  · simp [h]

/-! ## Claim theorems -/

/-- C1: for every uid and non-empty payload (both in `u32` range, since
`struct.pack` rejects larger values), `sync_read_msg` applied to the
byte stream `sync_write_msg(uid, payload)` produces with an empty auth
code (no auth prefix) recovers exactly `(uid, payload)`: `read_msg` is a
left inverse of `write_msg` on non-empty payloads. -/
theorem read_msg_of_write_msg (uid : Nat) (data : List Nat) (auth : Bool)
    (hu : uid < 2 ^ 32) (h1 : 0 < data.length) (h2 : data.length < 2 ^ 32) :
    sync_read_msg (sync_write_msg uid data auth []) = .ok uid data := by
  have hh : (u32be uid ++ u32be data.length).length = 8 := by simp [u32be_length]
  have h8 : sync_read ((u32be uid ++ u32be data.length) ++ data) 8
      = some (u32be uid ++ u32be data.length, data) := by
    simp only [sync_read]
    rw [if_pos (by simp [u32be_length]; omega), List.take_left' hh, List.drop_left' hh]
  have hself : sync_read data data.length = some (data, []) := by
    simp [sync_read]
  have hw : sync_write_msg uid data auth [] = (u32be uid ++ u32be data.length) ++ data := by
    simp [sync_write_msg, sync_write, List.append_assoc]
  rw [hw]
  simp only [sync_read_msg, h8, hh, List.take_left' (u32be_length uid),
             List.drop_left' (u32be_length uid), be32_u32be uid hu,
             be32_u32be data.length h2, hself]
  rw [if_neg (by omega), if_neg (by omega), if_neg (by omega)]

/-- C1 witness: the round trip at `uid = 7`, payload `b"hi"`. -/
theorem read_msg_of_write_msg_witness :
    7 < 2 ^ 32 ∧ 0 < [104, 105].length ∧ [104, 105].length < 2 ^ 32 ∧
    sync_read_msg (sync_write_msg 7 [104, 105] true []) = .ok 7 [104, 105] :=
  ⟨by decide, by decide, by decide,
    read_msg_of_write_msg 7 [104, 105] true (by decide) (by decide) (by decide)⟩

/-- C5: `sync_write_msg` emits the auth prefix exactly when the socket
carries a truthy one and the caller did not pass `auth=False`, followed
by the uid as a big-endian u32, the payload length as a big-endian u32,
and the payload; concretely, with auth code `b"S3CR"`,
`write_msg(uid=7, data=b"hi")` emits
`b"S3CR" + 00 00 00 07 + 00 00 00 02 + b"hi"`. -/
theorem write_msg_layout (uid : Nat) (data auth_code : List Nat)
    (_hu : uid < 2 ^ 32) (_h2 : data.length < 2 ^ 32) :
    (auth_code ≠ [] →
      sync_write_msg uid data true auth_code
        = auth_code ++ u32be uid ++ u32be data.length ++ data) ∧
    sync_write_msg uid data false auth_code = u32be uid ++ u32be data.length ++ data ∧
    sync_write_msg uid data true [] = u32be uid ++ u32be data.length ++ data ∧
    sync_write_msg 7 [104, 105] true [83, 51, 67, 82]
      = [83, 51, 67, 82, 0, 0, 0, 7, 0, 0, 0, 2, 104, 105] := by
  refine ⟨fun hac => ?_, ?_, ?_, by decide⟩
  · simp [sync_write_msg, sync_write, hac, List.append_assoc]
  · simp [sync_write_msg, sync_write]
  · simp [sync_write_msg, sync_write]

/-- C5 witness: the layout at the concrete values of the claim. -/
theorem write_msg_layout_witness :
    sync_write_msg 7 [104, 105] true [83, 51, 67, 82]
        = [83, 51, 67, 82] ++ u32be 7 ++ u32be [104, 105].length ++ [104, 105] ∧
    sync_write_msg 7 [104, 105] false [83, 51, 67, 82]
        = u32be 7 ++ u32be [104, 105].length ++ [104, 105] :=
  ⟨(write_msg_layout 7 [104, 105] [83, 51, 67, 82] (by decide) (by decide)).1 (by decide),
   (write_msg_layout 7 [104, 105] [83, 51, 67, 82] (by decide) (by decide)).2.1⟩

/-- C2 (code bug): when a running coroutine yields a freshly spawned
`Coro` handle, the scheduler is specified to freeze it and push it onto
the child's stack; the source instead evaluates the misspelled constant
`AsyncCoro._Frozen` at that transition, raising a `NameError` that
propagates out of the scheduler loop.  Evaluated here at a concrete
state: coroutine 1 is `Running` and yields the fresh child handle 2. -/
theorem yield_child_raises_name_error :
    handleYield
      { coros := [(1, ⟨.running, .nil, false, 101, []⟩), (2, ⟨.scheduled, .nil, false, 102, []⟩)],
        running := [1, 2], suspended := [], timeouts := [], timeoutCids := [] }
      1 (.coroRef 2)
      = .error "NameError: global name AsyncCoro is not defined" := rfl

/-- C3 (code bug): the notifier dispatch loop branches on `event` — the
variable leaked from the preceding list comprehension, i.e. the *last*
pair's event — not on the pair's own `evnt`.  First batch: a socket with
a pending continuation and a tracked timestamp polls `Readable`, but the
batch ends with an `Error` pair, so nothing is invoked and no timestamp
is refreshed (the claim requires the first socket's continuation to run
and its timestamp to become `now = 100`).  Second batch: with the order
reversed the `Error` pair is dispatched as if readable. -/
theorem dispatch_branches_on_leaked_event :
    dispatchBatch 100
      [(some ⟨some 5, true, some 1⟩, evReadable), (some ⟨some 5, true, some 2⟩, evError)]
      = [(some ⟨some 5, true, some 1⟩, false), (some ⟨some 5, true, some 2⟩, false)] ∧
    dispatchBatch 100
      [(some ⟨some 5, true, some 2⟩, evError), (some ⟨some 5, true, some 1⟩, evReadable)]
      = [(some ⟨some 100, true, some 2⟩, true), (some ⟨some 100, true, some 1⟩, true)] :=
  ⟨rfl, rfl⟩

/-- C4 counterexample: `_resume` does not clear `_value_is_exc`.  At a
state whose coroutine 1 is `Stopped` with the error flag set, the resume
succeeds (not dropped, value written, state `Scheduled`) yet the error
flag is still set, refuting "writes v into the pending-value slot with
the error flag clear". -/
theorem resume_error_flag_not_cleared :
    (resumeOp resumeExample 1 (.payload 5)).2 = false ∧
    (resumeOp resumeExample 1 (.payload 5)).1.coros.lookup 1
      = some ⟨.scheduled, .payload 5, true, 11, []⟩ ∧
    ¬(resumeOp resumeExample 1 (.payload 5)).1.coros.lookup 1
      = some ⟨.scheduled, .payload 5, false, 11, []⟩ := by
  refine ⟨rfl, rfl, by decide⟩

/-- C4 (amended): `Resume(id, v)` succeeds only when the target's state
is `Suspended` or `Stopped`, in which case it writes `v` into the
pending-value slot *leaving the error flag unchanged*, moves the
coroutine to the runnable set and sets its state to `Scheduled`; a
second resume issued before the next step is dropped with a warning, and
a resume on an unknown id or incompatible state changes no scheduler
state. -/
theorem resume_spec (st : Sched) (cid : Nat) (v v' : Val) (c : CoroRec)
    (hc : st.coros.lookup cid = some c)
    (hstate : c.state = .stopped ∨ c.state = .suspended)
    (hnd : st.suspended.Nodup) :
    resumeOp st cid v
      = ({ st with
            coros := setCoro st.coros cid { c with value := v, state := .scheduled },
            suspended := st.suspended.erase cid,
            running := addSet st.running cid }, false) ∧
    (resumeOp st cid v).1.coros.lookup cid = some { c with value := v, state := .scheduled } ∧
    cid ∈ (resumeOp st cid v).1.running ∧
    cid ∉ (resumeOp st cid v).1.suspended ∧
    resumeOp (resumeOp st cid v).1 cid v' = ((resumeOp st cid v).1, true) ∧
    (∀ (cid2 : Nat) (v2 : Val), st.coros.lookup cid2 = none → resumeOp st cid2 v2 = (st, true)) ∧
    (∀ (cid2 : Nat) (v2 : Val) (c2 : CoroRec), st.coros.lookup cid2 = some c2 →
      c2.state ≠ .stopped → c2.state ≠ .suspended → resumeOp st cid2 v2 = (st, true)) := by
  have h1 : resumeOp st cid v
      = ({ st with
            coros := setCoro st.coros cid { c with value := v, state := .scheduled },
            suspended := st.suspended.erase cid,
            running := addSet st.running cid }, false) := by
    simp only [resumeOp, hc]
    rw [if_pos hstate]
  have h2 : (setCoro st.coros cid { c with value := v, state := .scheduled }).lookup cid
      = some { c with value := v, state := .scheduled } :=
    lookup_setCoro_self st.coros cid c _ hc
  refine ⟨h1, ?_, ?_, ?_, ?_, ?_, ?_⟩
  · rw [h1]; exact h2
  · rw [h1]; exact mem_addSet_self st.running cid
  · rw [h1]; exact hnd.not_mem_erase
  · rw [h1]
    simp only [resumeOp, h2]
    rw [if_neg (by simp)]
  · intro cid2 v2 hl; simp [resumeOp, hl]
  · intro cid2 v2 c2 hl hs1 hs2
    simp only [resumeOp, hl]
    rw [if_neg (by simp [hs1, hs2])]

/-- C4 witness: the amended behaviour evaluated at the concrete state of
the counterexample. -/
theorem resume_spec_witness :
    (resumeOp resumeExample 1 (.payload 5)).1.coros.lookup 1
        = some ⟨.scheduled, .payload 5, true, 11, []⟩ ∧
    1 ∈ (resumeOp resumeExample 1 (.payload 5)).1.running ∧
    1 ∉ (resumeOp resumeExample 1 (.payload 5)).1.suspended ∧
    resumeOp (resumeOp resumeExample 1 (.payload 5)).1 1 (.payload 6)
        = ((resumeOp resumeExample 1 (.payload 5)).1, true) := by
  have h := resume_spec resumeExample 1 (.payload 5) (.payload 6)
    ⟨.stopped, .excVal 3, true, 11, []⟩ rfl (Or.inl rfl) (by decide)
  exact ⟨h.2.1, h.2.2.1, h.2.2.2.1, h.2.2.2.2.1⟩

/-- C6: the condition variable is a one-shot latched notification:
`notify` always sets the flag (also with no waiter) and resumes the wait
queue head when one exists; `wait(c)` with the flag set clears it, keeps
ownership and returns `False` ("do not reloop"); with the flag clear it
releases ownership, appends `c`, suspends and returns `True` ("re-check
the predicate"). -/
theorem condition_one_shot :
    (∀ cv : CoroCondition, (CoroCondition.notify cv).1.notifyFlag = true) ∧
    (∀ cv : CoroCondition, cv.waitlist = [] →
      CoroCondition.notify cv = ({ cv with notifyFlag := true }, none)) ∧
    (∀ (cv : CoroCondition) (w : Nat) (rest : List Nat), cv.waitlist = w :: rest →
      CoroCondition.notify cv = ({ cv with notifyFlag := true, waitlist := rest }, some w)) ∧
    (∀ (cv : CoroCondition) (c : Nat), cv.notifyFlag = true →
      CoroCondition.wait cv c = ({ cv with notifyFlag := false, owner := some c }, false, false)) ∧
    (∀ (cv : CoroCondition) (c : Nat), cv.notifyFlag = false →
      CoroCondition.wait cv c
        = ({ cv with owner := none, waitlist := cv.waitlist ++ [c] }, true, true)) := by
  refine ⟨?_, ?_, ?_, ?_, ?_⟩
  · intro cv; cases hw : cv.waitlist <;> simp [CoroCondition.notify, hw]
  · intro cv h; simp [CoroCondition.notify, h]
  · intro cv w rest h; simp [CoroCondition.notify, h]
  · intro cv c h; simp [CoroCondition.wait, h]
  · intro cv c h; simp [CoroCondition.wait, h]

/-- C6 witness: the four behaviours at concrete condition variables. -/
theorem condition_one_shot_witness :
    CoroCondition.notify ⟨[], none, false⟩ = (⟨[], none, true⟩, none) ∧
    CoroCondition.notify ⟨[4, 5], some 9, false⟩ = (⟨[5], some 9, true⟩, some 4) ∧
    CoroCondition.wait ⟨[], none, true⟩ 7 = (⟨[], some 7, false⟩, false, false) ∧
    CoroCondition.wait ⟨[], some 7, false⟩ 7 = (⟨[7], none, false⟩, true, true) :=
  ⟨condition_one_shot.2.1 _ rfl, condition_one_shot.2.2.1 _ 4 [5] rfl,
   condition_one_shot.2.2.2.1 _ 7 rfl, condition_one_shot.2.2.2.2 _ 7 rfl⟩

/-- C8: constructing the notifier with `fd_timeout < 5 * poll_interval`
fails the assertion (no instance is produced), and every successfully
constructed notifier satisfies `fd_timeout ≥ 5 * poll_interval`. -/
theorem notifier_interval_invariant :
    (∀ (p f : ℚ) (cfg : ℚ × ℚ), mkNotifier p f = some cfg →
      5 * cfg.1 ≤ cfg.2 ∧ cfg = (p, f)) ∧
    (∀ p f : ℚ, f < 5 * p → mkNotifier p f = none) := by
  constructor
  · intro p f cfg h
    by_cases hle : 5 * p ≤ f
    · rw [mkNotifier, if_pos hle] at h
      cases h
      exact ⟨hle, rfl⟩
    · rw [mkNotifier, if_neg hle] at h
      cases h
  · intro p f h
    rw [mkNotifier, if_neg (not_le.mpr h)]

/-- C8 witness: the default construction `(poll_interval, fd_timeout) =
(2, 10)` succeeds and satisfies the invariant; `(2, 9)` fails the
assertion. -/
theorem notifier_interval_invariant_witness :
    (5 * ((2 : ℚ), (10 : ℚ)).1 ≤ ((2 : ℚ), (10 : ℚ)).2 ∧
      ((2 : ℚ), (10 : ℚ)) = (2, 10)) ∧
    mkNotifier 2 9 = none :=
  ⟨notifier_interval_invariant.1 2 10 (2, 10) (by norm_num [mkNotifier]),
   notifier_interval_invariant.2 2 9 (by norm_num)⟩

/-- C9: `suspend`/`sleep` with a timeout that is not a `float` instance
(for example the integer 2) or that is not strictly positive logs a
warning and returns with no change to any scheduler state: no state
transition, no suspended-set change, no timer entry. -/
theorem invalid_timeout_noop :
    (∀ (st : Sched) (cid : Nat) (now : ℚ) (n : Int),
      suspendOp st cid (.intVal n) now = (st, true)) ∧
    (∀ (st : Sched) (cid : Nat) (now q : ℚ), q ≤ 0 →
      suspendOp st cid (.floatVal q) now = (st, true)) := by
  refine ⟨fun st cid now n => rfl, fun st cid now q hq => ?_⟩
  simp [suspendOp, hq]

/-- C9 witness: the integer timeout 2 and the non-positive float 0 are
no-ops on a state that a valid suspend would have changed. -/
theorem invalid_timeout_noop_witness :
    suspendOp suspendExample 1 (.intVal 2) 0 = (suspendExample, true) ∧
    suspendOp suspendExample 1 (.floatVal 0) 0 = (suspendExample, true) :=
  ⟨invalid_timeout_noop.1 suspendExample 1 0 2,
   invalid_timeout_noop.2 suspendExample 1 0 0 (le_refl 0)⟩

/-- C10: `modify(fd, 0)` resets a tracked timestamp to `0`, and since
the inactivity sweep selects only sockets with a truthy (non-`None`,
non-zero) timestamp, a socket whose interest was dropped to zero is
never selected and never has a timeout thrown into its coroutine,
whatever `now` and `fd_timeout` are. -/
theorem modify_zero_timeout_immunity :
    (∀ fd : NSock, fd.timestamp ≠ none → (modifyInterest fd 0).timestamp = some 0) ∧
    (∀ (fd : NSock) (now ft : ℚ), timedOutPred now ft (modifyInterest fd 0) = false) ∧
    (∀ (fd : NSock) (now ft : ℚ),
      inactivitySweep [modifyInterest fd 0] now ft = ([modifyInterest fd 0], [])) := by
  have key : ∀ (fd : NSock) (now ft : ℚ), timedOutPred now ft (modifyInterest fd 0) = false := by
    intro fd now ft
    cases h : fd.timestamp <;> simp [modifyInterest, h, timedOutPred, timestampTruthy]
  refine ⟨?_, key, ?_⟩
  · intro fd h
    cases ht : fd.timestamp with
    | none => exact absurd ht h
    | some q => simp [modifyInterest, ht]
  · intro fd now ft
    simp [inactivitySweep, List.filter, key fd now ft]

theorem wakeCoro_lookup_ne (st : Sched) (y cid : Nat) (h : cid ≠ y) :
    (wakeCoro st y).coros.lookup cid = st.coros.lookup cid := by
  unfold wakeCoro
  cases hl : st.coros.lookup y with
  | none => rfl
  | some c => exact lookup_setCoro_ne st.coros y cid _ h

theorem wakeCoro_running_mono (st : Sched) (y cid : Nat) (h : cid ∈ st.running) :
    cid ∈ (wakeCoro st y).running := by
  unfold wakeCoro
  cases hl : st.coros.lookup y with
  | none => exact h
  | some c => exact mem_addSet_of_mem st.running cid y h

theorem wakeCoro_suspended_anti (st : Sched) (y cid : Nat) (h : cid ∉ st.suspended) :
    cid ∉ (wakeCoro st y).suspended := by
  unfold wakeCoro
  cases hl : st.coros.lookup y with
  | none => exact h
  | some c => exact fun hm => h (List.mem_of_mem_erase hm)

theorem wakeCoro_suspended_nodup (st : Sched) (y : Nat) (h : st.suspended.Nodup) :
    (wakeCoro st y).suspended.Nodup := by
  unfold wakeCoro
  cases hl : st.coros.lookup y with
  | none => exact h
  | some c => exact h.erase y

theorem sweepAux_lookup_not_mem (now : ℚ) :
    ∀ (ts : List ℚ) (cids : List Nat) (st : Sched) (cid : Nat), cid ∉ cids →
      (sweepAux now ts cids st).1.coros.lookup cid = st.coros.lookup cid := by
  intro ts
  induction ts with
  | nil => intro cids st cid _; rfl
  | cons t ts ih =>
    intro cids st cid h
    cases cids with
    | nil => rfl
    | cons cid0 cids =>
      have h0 : cid ≠ cid0 := fun he => h (he ▸ List.mem_cons_self cid0 cids)
      have htl : cid ∉ cids := fun hm => h (List.mem_cons_of_mem cid0 hm)
      by_cases hn : t ≤ now
      · simp only [sweepAux, if_pos hn]
        rw [ih cids (wakeCoro st cid0) cid htl]
        exact wakeCoro_lookup_ne st cid0 cid h0
      · simp only [sweepAux, if_neg hn]

theorem sweepAux_running_mono (now : ℚ) :
    ∀ (ts : List ℚ) (cids : List Nat) (st : Sched) (cid : Nat), cid ∈ st.running →
      cid ∈ (sweepAux now ts cids st).1.running := by
  intro ts
  induction ts with
  | nil => intro cids st cid h; exact h
  | cons t ts ih =>
    intro cids st cid h
    cases cids with
    | nil => exact h
    | cons cid0 cids =>
      by_cases hn : t ≤ now
      · simp only [sweepAux, if_pos hn]
        exact ih cids (wakeCoro st cid0) cid (wakeCoro_running_mono st cid0 cid h)
      · simp only [sweepAux, if_neg hn]
        exact h

theorem sweepAux_suspended_anti (now : ℚ) :
    ∀ (ts : List ℚ) (cids : List Nat) (st : Sched) (cid : Nat), cid ∉ st.suspended →
      cid ∉ (sweepAux now ts cids st).1.suspended := by
  intro ts
  induction ts with
  | nil => intro cids st cid h; exact h
  | cons t ts ih =>
    intro cids st cid h
    cases cids with
    | nil => exact h
    | cons cid0 cids =>
      by_cases hn : t ≤ now
      · simp only [sweepAux, if_pos hn]
        exact ih cids (wakeCoro st cid0) cid (wakeCoro_suspended_anti st cid0 cid h)
      · simp only [sweepAux, if_neg hn]
        exact h

theorem sweepAux_spec (now : ℚ) :
    ∀ (ts : List ℚ) (cids : List Nat) (st : Sched),
      ts.Pairwise (· ≤ ·) → ts.length = cids.length → cids.Nodup → st.suspended.Nodup →
      (sweepAux now ts cids st).2
          = ((ts.zip cids).takeWhile fun p => decide (p.1 ≤ now)).map Prod.snd ∧
      (sweepAux now ts cids st).1.timeouts
          = ((ts.zip cids).dropWhile fun p => decide (p.1 ≤ now)).map Prod.fst ∧
      (sweepAux now ts cids st).1.timeoutCids
          = ((ts.zip cids).dropWhile fun p => decide (p.1 ≤ now)).map Prod.snd ∧
      (∀ t ∈ ((ts.zip cids).dropWhile fun p => decide (p.1 ≤ now)).map Prod.fst, now < t) ∧
      (∀ p ∈ (ts.zip cids).takeWhile fun p => decide (p.1 ≤ now), p.1 ≤ now) ∧
      (∀ cid ∈ ((ts.zip cids).takeWhile fun p => decide (p.1 ≤ now)).map Prod.snd,
        ∀ c : CoroRec, st.coros.lookup cid = some c →
          (sweepAux now ts cids st).1.coros.lookup cid
              = some { c with state := CState.scheduled, value := Val.nil } ∧
          cid ∈ (sweepAux now ts cids st).1.running ∧
          cid ∉ (sweepAux now ts cids st).1.suspended) := by
  intro ts
  induction ts with
  | nil =>
    intro cids st _ hlen _ _
    cases cids with
    | nil => simp [sweepAux]
    | cons c cs => simp at hlen
  | cons t ts ih =>
    intro cids st hsort hlen hnd hsnd
    cases cids with
    | nil => simp at hlen
    | cons cid0 cids =>
      have hlen' : ts.length = cids.length := by simpa using hlen
      by_cases hn : t ≤ now
      · have hcid0 : cid0 ∉ cids := (List.nodup_cons.mp hnd).1
        have ihh := ih cids (wakeCoro st cid0) hsort.of_cons hlen'
          (List.nodup_cons.mp hnd).2 (wakeCoro_suspended_nodup st cid0 hsnd)
        have heq : sweepAux now (t :: ts) (cid0 :: cids) st
            = ((sweepAux now ts cids (wakeCoro st cid0)).1,
               cid0 :: (sweepAux now ts cids (wakeCoro st cid0)).2) := by
          simp only [sweepAux, if_pos hn]
        have hzip : (t :: ts).zip (cid0 :: cids) = (t, cid0) :: ts.zip cids := rfl
        have hp : (fun p : ℚ × Nat => decide (p.1 ≤ now)) (t, cid0) = true := by
          simpa using hn
        have htw : ((t :: ts).zip (cid0 :: cids)).takeWhile (fun p => decide (p.1 ≤ now))
            = (t, cid0) :: (ts.zip cids).takeWhile (fun p => decide (p.1 ≤ now)) := by
          rw [hzip, List.takeWhile_cons_of_pos (p := fun q : ℚ × Nat => decide (q.1 ≤ now)) hp]
        have hdw : ((t :: ts).zip (cid0 :: cids)).dropWhile (fun p => decide (p.1 ≤ now))
            = (ts.zip cids).dropWhile (fun p => decide (p.1 ≤ now)) := by
          rw [hzip, List.dropWhile_cons_of_pos (p := fun q : ℚ × Nat => decide (q.1 ≤ now)) hp]
        refine ⟨?_, ?_, ?_, ?_, ?_, ?_⟩
        · rw [heq, htw, List.map_cons, ihh.1]
        · rw [heq, hdw]; exact ihh.2.1
        · rw [heq, hdw]; exact ihh.2.2.1
        · rw [hdw]; exact ihh.2.2.2.1
        · rw [htw]
          intro p hmem
          rcases List.mem_cons.mp hmem with hph | hpt
          · rw [hph]; exact hn
          · exact ihh.2.2.2.2.1 p hpt
        · rw [heq, htw, List.map_cons]
          intro cid hmem c hc
          rcases List.mem_cons.mp hmem with hch | hct
          · rw [hch] at hc ⊢
            have hl0 : (wakeCoro st cid0).coros.lookup cid0
                = some { c with state := CState.scheduled, value := Val.nil } := by
              unfold wakeCoro
              rw [hc]
              exact lookup_setCoro_self st.coros cid0 c _ hc
            have hr0 : cid0 ∈ (wakeCoro st cid0).running := by
              unfold wakeCoro
              rw [hc]
              exact mem_addSet_self st.running cid0
            have hs0 : cid0 ∉ (wakeCoro st cid0).suspended := by
              unfold wakeCoro
              rw [hc]
              exact hsnd.not_mem_erase
            exact ⟨(sweepAux_lookup_not_mem now ts cids (wakeCoro st cid0) cid0 hcid0).trans hl0,
                   sweepAux_running_mono now ts cids (wakeCoro st cid0) cid0 hr0,
                   sweepAux_suspended_anti now ts cids (wakeCoro st cid0) cid0 hs0⟩
          · have hcidne : cid ≠ cid0 := by
              rintro rfl
              apply hcid0
              obtain ⟨p, hpmem, hps⟩ := List.mem_map.mp hct
              have hpz := (List.takeWhile_sublist _).subset hpmem
              exact hps ▸ (List.of_mem_zip hpz).2
            have hc' : (wakeCoro st cid0).coros.lookup cid = some c := by
              rw [wakeCoro_lookup_ne st cid0 cid hcidne]
              exact hc
            exact ihh.2.2.2.2.2 cid hct c hc'
      · have heq : sweepAux now (t :: ts) (cid0 :: cids) st
            = ({ st with timeouts := t :: ts, timeoutCids := cid0 :: cids }, []) := by
          simp only [sweepAux, if_neg hn]
        have hzip : (t :: ts).zip (cid0 :: cids) = (t, cid0) :: ts.zip cids := rfl
        have hp : ¬((fun p : ℚ × Nat => decide (p.1 ≤ now)) (t, cid0) = true) := by
          simpa using hn
        have htw : ((t :: ts).zip (cid0 :: cids)).takeWhile (fun p => decide (p.1 ≤ now))
            = [] := by
          rw [hzip, List.takeWhile_cons_of_neg (p := fun q : ℚ × Nat => decide (q.1 ≤ now)) hp]
        have hdw : ((t :: ts).zip (cid0 :: cids)).dropWhile (fun p => decide (p.1 ≤ now))
            = (t, cid0) :: ts.zip cids := by
          rw [hzip, List.dropWhile_cons_of_neg (p := fun q : ℚ × Nat => decide (q.1 ≤ now)) hp]
        refine ⟨?_, ?_, ?_, ?_, ?_, ?_⟩
        · rw [heq, htw]; rfl
        · rw [heq, hdw, List.map_cons, List.map_fst_zip ts cids (le_of_eq hlen')]
        · rw [heq, hdw, List.map_cons, List.map_snd_zip ts cids (ge_of_eq hlen')]
        · rw [hdw, List.map_cons, List.map_fst_zip ts cids (le_of_eq hlen')]
          intro u hu
          rcases List.mem_cons.mp hu with huh | hut
          · rw [huh]; exact lt_of_not_le hn
          · exact lt_of_lt_of_le (lt_of_not_le hn) (List.rel_of_pairwise_cons hsort hut)
        · rw [htw]; intro p hmem; simp at hmem
        · rw [htw]; intro cid hmem; simp at hmem

/-- C7: the timer sweep of a scheduler tick processes exactly the timer
entries whose deadline is at most `now` (given the sortedness invariant
`bisect_left` insertion maintains): each fired identifier still present
in the coroutine map leaves the suspended set, enters the runnable set
with state `Scheduled` and pending value cleared to nil, the fired
entries are removed from the paired sequences (every remaining deadline
lies beyond `now`), and the fired identifiers are processed in deadline
order — the order of the sorted sequence. -/
theorem timer_sweep_spec (st : Sched) (now : ℚ)
    (hsort : st.timeouts.Pairwise (· ≤ ·))
    (hlen : st.timeouts.length = st.timeoutCids.length)
    (hnd : st.timeoutCids.Nodup)
    (hsnd : st.suspended.Nodup) :
    (sweepTimers st now).2 = (specFiredTimers st now).map Prod.snd ∧
    (sweepTimers st now).1.timeouts = (specRemainingTimers st now).map Prod.fst ∧
    (sweepTimers st now).1.timeoutCids = (specRemainingTimers st now).map Prod.snd ∧
    (∀ t ∈ (specRemainingTimers st now).map Prod.fst, now < t) ∧
    (∀ p ∈ specFiredTimers st now, p.1 ≤ now) ∧
    (∀ cid ∈ (specFiredTimers st now).map Prod.snd, ∀ c : CoroRec,
      st.coros.lookup cid = some c →
        (sweepTimers st now).1.coros.lookup cid
            = some { c with state := CState.scheduled, value := Val.nil } ∧
        cid ∈ (sweepTimers st now).1.running ∧
        cid ∉ (sweepTimers st now).1.suspended) :=
  sweepAux_spec now st.timeouts st.timeoutCids st hsort hlen hnd hsnd

/-- C7 witness: the sleep-ordering scenario — deadlines 10, 20, 30 held
by coroutines 2, 3, 1 all fire at `now = 50` and are delivered in the
order 2, 3, 1 (the 10-, 20-, 30-unit sleepers); the woken coroutine 2 is
`Scheduled` with a nil value, runnable and no longer suspended. -/
theorem timer_sweep_spec_witness :
    (sweepTimers sleepExample 50).2 = [2, 3, 1] ∧
    (sweepTimers sleepExample 50).1.timeouts = [] ∧
    (sweepTimers sleepExample 50).1.coros.lookup 2
        = some ⟨.scheduled, .nil, false, 12, []⟩ ∧
    2 ∈ (sweepTimers sleepExample 50).1.running ∧
    2 ∉ (sweepTimers sleepExample 50).1.suspended := by
  have h := timer_sweep_spec sleepExample 50 (by decide) (by decide) (by decide) (by decide)
  have h2 := h.2.2.2.2.2 2 (by decide) ⟨.suspended, .nil, false, 12, []⟩ (by decide)
  exact ⟨h.1.trans (by decide), (h.2.1).trans (by decide), h2.1, h2.2.1, h2.2.2⟩

/-- C10 witness: a socket with tracked timestamp 5 and a waiting
coroutine, after `modify(fd, 0)`, is immune to an inactivity sweep even
at `now = 1000` with `fd_timeout = 5`. -/
theorem modify_zero_timeout_immunity_witness :
    (modifyInterest ⟨some 5, true, some 3⟩ 0).timestamp = some 0 ∧
    timedOutPred 1000 5 (modifyInterest ⟨some 5, true, some 3⟩ 0) = false ∧
    inactivitySweep [modifyInterest ⟨some 5, true, some 3⟩ 0] 1000 5
      = ([modifyInterest ⟨some 5, true, some 3⟩ 0], []) :=
  ⟨modify_zero_timeout_immunity.1 _ (by simp),
   modify_zero_timeout_immunity.2.1 _ 1000 5,
   modify_zero_timeout_immunity.2.2 _ 1000 5⟩

end ACoro
